import Mathlib

/-!
Verification development for the PSPP expression-compiler generator
(`src/language/expressions/generate.py`).  The Python program parses a
declarative operation-definition language into an intermediate
representation (`Op` records over a fixed catalog of `Ty` type
descriptors) and emits five synchronized C source artifacts.  Below, the
data model, the semantic-validation steps of `parse_input`, and the
per-operation emission functions of the five generators are embedded as
executable Lean definitions, each transcribed from the Python source;
theorems about the spec's claims follow the definitions.
-/

namespace PsppGen

/-- Type descriptor, embedding class `Type` of generate.py.  The Python
class sets only the fields its role needs (duck typing); here unused
fields default to the empty string.  `role` is one of the four strings
the Python code uses: "atom", "any", "leaf", "auxonly". -/
structure Ty where
  name : String
  role : String
  human_name : String
  c_type : String := ""
  atom : String := ""
  mangle : String := ""
  stack : String := ""
  missing_value : String := ""
  auxonly_value : String := ""
deriving DecidableEq

/-- Normalization of `c_type` in `Type.__init__`: a trailing space is
added unless the C type ends in `*` (the `endswith` test for the
single-character pattern is a test on the last character). -/
def mkCType (c : String) : String :=
  if c.data.getLast? = some '*' then c else c ++ " "

/-- Embeds `Type.new_atom`. -/
def Ty.new_atom (name : String) : Ty :=
  { name := name, role := "atom", human_name := name }

/-- Embeds `Type.new_any`. -/
def Ty.new_any (name c_type atom mangle human_name stack missing_value : String) : Ty :=
  { name := name, role := "any", human_name := human_name, c_type := mkCType c_type,
    atom := atom, mangle := mangle, stack := stack, missing_value := missing_value }

/-- Embeds `Type.new_leaf`. -/
def Ty.new_leaf (name c_type atom mangle human_name : String) : Ty :=
  { name := name, role := "leaf", human_name := human_name, c_type := mkCType c_type,
    atom := atom, mangle := mangle }

/-- Embeds `Type.new_auxonly`. -/
def Ty.new_auxonly (name c_type auxonly_value : String) : Ty :=
  { name := name, role := "auxonly", human_name := name, c_type := mkCType c_type,
    auxonly_value := auxonly_value }

def tNumber : Ty := Ty.new_any "number" "double" "number" "n" "number" "ns" "SYSMIS"
def tString : Ty :=
  Ty.new_any "string" "struct substring" "string" "s" "string" "ss" "empty_string"
def tBoolean : Ty := Ty.new_any "boolean" "double" "number" "n" "boolean" "ns" "SYSMIS"
def tInteger : Ty := Ty.new_any "integer" "int" "number" "n" "integer" "ns" "SYSMIS"
def tFormat : Ty := Ty.new_atom "format"
def tNiFormat : Ty := Ty.new_leaf "ni_format" "struct fmt_spec" "format" "f" "num_input_format"
def tNoFormat : Ty := Ty.new_leaf "no_format" "struct fmt_spec" "format" "f" "num_output_format"
def tPosInt : Ty := Ty.new_leaf "pos_int" "int" "integer" "n" "positive_integer_constant"
def tVariable : Ty := Ty.new_atom "variable"
def tNumVar : Ty := Ty.new_leaf "num_var" "const struct variable *" "variable" "Vn" "num_variable"
def tStrVar : Ty := Ty.new_leaf "str_var" "const struct variable *" "variable" "Vs" "string_variable"
def tVar : Ty := Ty.new_leaf "var" "const struct variable *" "variable" "V" "variable"
def tVector : Ty := Ty.new_leaf "vector" "const struct vector *" "vector" "v" "vector"
def tNumVecElem : Ty := Ty.new_any "num_vec_elem" "double" "number" "n" "number" "ns" "SYSMIS"
def tExprNode : Ty := Ty.new_leaf "expr_node" "const struct expr_node *" "expr_node" "e" "expr_node"
def tExpression : Ty := Ty.new_auxonly "expression" "struct expression *" "e"
def tCase : Ty := Ty.new_auxonly "case" "const struct ccase *" "c"
def tCaseIdx : Ty := Ty.new_auxonly "case_idx" "size_t" "case_idx"
def tDataset : Ty := Ty.new_auxonly "dataset" "struct dataset *" "ds"
def tReturnNumber : Ty := Ty.new_atom "return_number"
def tReturnString : Ty := Ty.new_atom "return_string"
def tOperation : Ty := Ty.new_atom "operation"

/-- The fixed type registry of `init_all_types`, in insertion order
(Python dicts preserve insertion order, and `types.values()` is iterated
in this order by the emitters). -/
def allTypes : List Ty :=
  [tNumber, tString, tBoolean, tInteger, tFormat, tNiFormat, tNoFormat, tPosInt,
   tVariable, tNumVar, tStrVar, tVar, tVector, tNumVecElem, tExprNode,
   tExpression, tCase, tCaseIdx, tDataset, tReturnNumber, tReturnString, tOperation]

/-- An operation argument, embedding class `Arg`.  `idx` is the
count-variable name when the argument is an array argument
(`None`/`none` for a plain scalar argument); `times` is the repetition
multiplier; `condition` the optional validity-condition text. -/
structure Arg where
  name : String
  type_ : Ty
  idx : Option String
  times : Nat := 1
  condition : Option String := none
deriving DecidableEq

/-- An auxiliary-data declaration: the Python code stores a dict
`{TYPE: type, NAME: name}`. -/
structure AuxDatum where
  type_ : Ty
  name : String
deriving DecidableEq

/-- Embeds `class Category(enum.Enum)`. -/
inductive Category where
  | function : Category
  | operator : Category
deriving DecidableEq

/-- An operation IR record, embedding class `Op` (constructor fields
only; the derived `opname` is the function `Op.opname` below). -/
structure Op where
  name : String
  category : Category
  returns : Ty
  args : List Arg
  aux : List AuxDatum
  expression : Option String := none
  block : Option String := none
  min_valid : Nat := 0
  optimizable : Bool := true
  unimplemented : Bool := false
  extension : Bool := false
  perm_only : Bool := false
  absorb_miss : Bool := false
  no_abbrev : Bool := false
deriving DecidableEq

/-- Embeds `s.replace('.', '_')`: the pattern is a single character, so the
replacement maps characters one-for-one. -/
def replaceDots (s : String) : String :=
  String.mk (s.data.map (fun c => if c = '.' then '_' else c))

/-- The canonical identifier computed in `Op.__init__`:
`('OP_%s' % name).replace('.', '_')`, then for functions the
concatenated argument mangle codes are appended after `_`. -/
def Op.opname (op : Op) : String :=
  let base := replaceDots ("OP_" ++ op.name)
  match op.category with
  | Category.function => base ++ "_" ++ String.join (op.args.map (fun a => a.type_.mangle))
  | Category.operator => base

/-- Embeds `Op.array_arg`: the last argument when it has an array index,
otherwise none. -/
def Op.array_arg (op : Op) : Option Arg :=
  match op.args.getLast? with
  | some a => if a.idx.isSome then some a else none
  | none => none

/-- The per-argument missing-tests accumulated by the first loop of
`Op.sysmis_decl` (the `not self.absorb_miss` branch). -/
def scalarSysmisTests (args : List Arg) : List String :=
  args.flatMap (fun arg =>
    let arg_name := "arg_" ++ arg.name
    match arg.idx with
    | none =>
        if arg.type_.name = "number" ∨ arg.type_.name = "boolean" ∨
           arg.type_.name = "integer" then
          ["!is_valid (" ++ arg_name ++ ")"]
        else []
    | some idx =>
        if arg.type_.name = "number" then
          let n := "arg_" ++ idx
          ["count_valid (" ++ arg_name ++ ", " ++ n ++ ") < " ++ n]
        else [])

/-- The condition tests accumulated by the last loop of
`Op.sysmis_decl`. -/
def conditionSysmisTests (args : List Arg) : List String :=
  args.flatMap (fun arg =>
    match arg.condition with
    | some c => ["!(" ++ c ++ ")"]
    | none => [])

/-- Embeds `Op.sysmis_decl`: the declaration of the `force_sysmis` guard, or
none when no guard is needed.  In the `min_valid > 0` branch the Python
code reads `self.args[-1]` (an exception on an empty list; that case is
unreachable because `parse_input` requires an array argument whenever
`min_valid > 0`). -/
def Op.sysmis_decl (op : Op) (min_valid_src : String) : Option String :=
  let sysmis_cond : List String :=
    if ¬ op.absorb_miss then
      scalarSysmisTests op.args
    else if op.min_valid > 0 then
      match op.args.getLast? with
      | some arg =>
          let a := "arg_" ++ arg.name
          let n := "arg_" ++ (arg.idx.getD "")
          ["count_valid (" ++ a ++ ", " ++ n ++ ") < " ++ min_valid_src]
      | none => []
    else []
  let sysmis_cond := sysmis_cond ++ conditionSysmisTests op.args
  if sysmis_cond.isEmpty then none
  else some ("bool force_sysmis = " ++ String.intercalate " || " sysmis_cond)

/-- Embeds `Op.prototype`: the human-readable call prototype, for functions
only. -/
def Op.prototype (op : Op) : Option String :=
  match op.category with
  | Category.operator => none
  | Category.function =>
      let args0 := op.args.filterMap
        (fun arg => if arg.idx.isNone then some arg.type_.human_name else none)
      let pair :=
        match op.array_arg with
        | none => (args0, ([] : List String))
        | some array =>
            if op.min_valid = 0 then
              let array_args := List.replicate array.times array.type_.human_name
              (args0 ++ array_args, array_args)
            else
              (args0 ++ List.replicate op.min_valid array.type_.human_name,
               [array.type_.human_name])
      let proto := op.name ++ "(" ++ String.intercalate ", " pair.1
      let proto := if pair.2.isEmpty then proto
                   else proto ++ "[, " ++ String.intercalate ", " pair.2 ++ "]..."
      some (proto ++ ")")

/-- The list of `OPF_*` flags accumulated by `Op.flags` (the Python
loop over `aux` breaks after the first `expr_node` entry, which is the
same as this single `any` test). -/
def Op.flagsList (op : Op) : List String :=
  (if op.absorb_miss then ["OPF_ABSORB_MISS"] else []) ++
  (if op.array_arg.isSome then ["OPF_ARRAY_OPERAND"] else []) ++
  (if op.min_valid > 0 then ["OPF_MIN_VALID"] else []) ++
  (if ¬ op.optimizable then ["OPF_NONOPTIMIZABLE"] else []) ++
  (if op.extension then ["OPF_EXTENSION"] else []) ++
  (if op.unimplemented then ["OPF_UNIMPLEMENTED"] else []) ++
  (if op.perm_only then ["OPF_PERM_ONLY"] else []) ++
  (if op.no_abbrev then ["OPF_NO_ABBREV"] else []) ++
  (if op.aux.any (fun a => a.type_.name = "expr_node") then ["OPF_EXPR_NODE"] else [])

/-- Embeds `Op.flags`: the joined flag expression, `"0"` when no flag
applies. -/
def Op.flags (op : Op) : String :=
  let fs := op.flagsList
  if fs.isEmpty then "0" else String.intercalate " | " fs

/-! ### Semantic validation steps of `parse_input` -/

/-- The membership test `key in aux` at generate.py line 434.  `aux` is
the Python list of aux-datum dicts and `key` a string; the `in`
operator compares `key` with `==` against each list element, and in
Python a `str` never compares equal to a `dict`, so the comparison is
false for every element regardless of the record's contents. -/
def pyStrEqAuxDatum (_key : String) (_d : AuxDatum) : Bool := false

/-- generate.py lines 430–436: the cross-checks applied when the
operation is optimizable (the `RV.` name test and the CASE/CASE_IDX
aux-data test, in source order, first failure wins). -/
def checkOptimizable (optimizable : Bool) (name : String) (aux : List AuxDatum) :
    Except String Unit :=
  if optimizable then
    if List.isPrefixOf "RV.".data name.data then
      Except.error "random variate functions must be marked no_opt"
    else
      match (["CASE", "CASE_IDX"].filter (fun key => aux.any (pyStrEqAuxDatum key))).head? with
      | some key => Except.error ("operators with " ++ key ++ " aux data must be marked no_opt")
      | none => Except.ok ()
  else Except.ok ()

/-- generate.py lines 439–445: the per-argument loop run when the
return type is string and absorb_miss is unset.  (The second message
transcribes the Python source faithfully: the source never applies the
`%` operator to it, so the literal placeholder is the message.) -/
def checkStringAbsorbArgs : List Arg → String → Except String Unit
  | [], _ => Except.ok ()
  | arg :: rest, name =>
      if arg.type_.name = "number" ∨ arg.type_.name = "boolean" then
        Except.error (name ++ " returns string and has double or bool argument, " ++
                      "but is not marked ABSORB_MISS")
      else if arg.condition.isSome then
        Except.error "%s returns string but has argument with condition"
      else checkStringAbsorbArgs rest name

/-- generate.py lines 438–445: reject a string-returning,
non-absorbing operation with a numeric/boolean or conditioned
argument. -/
def checkStringAbsorb (return_type_name : String) (absorb_miss : Bool) (name : String)
    (args : List Arg) : Except String Unit :=
  if return_type_name = "string" ∧ ¬ absorb_miss then checkStringAbsorbArgs args name
  else Except.ok ()

/-- Decimal digit test, as in the regex class `\d` over ASCII input. -/
def isDigitChar (c : Char) : Bool := decide ('0' ≤ c ∧ c ≤ '9')

/-- The match semantics of `re.match(r'(.*)\.(\d+)$', name)` at
generate.py line 391: the name splits at its last period provided at
least one character follows it and all of them are digits; the part
before the period is the (greedy) first group and the digits the
second.  Returns none when the regex does not match. -/
def splitMinValid (name : String) : Option (String × String) :=
  let cs := name.toList.reverse
  let digits := cs.takeWhile isDigitChar
  let rest := cs.dropWhile isDigitChar
  match rest with
  | '.' :: before =>
      if digits.isEmpty then none
      else some (String.mk before.reverse, String.mk digits.reverse)
  | _ => none

/-- Embeds `int(suffix)` on a digit string. -/
def digitsToNat (s : String) : Nat :=
  s.data.foldl (fun n c => n * 10 + (c.toNat - Char.toNat '0')) 0

/-- Result of the name/suffix processing of generate.py lines 391–398. -/
structure SuffixResult where
  name : String
  min_valid : Nat
  absorb_miss : Bool
deriving DecidableEq

/-- generate.py lines 391–398: when the operation name matches
`(.*)\.(\d+)$`, strip the suffix, use the digits as the
minimum-valid-argument count and force absorb_miss on; otherwise the
name is kept, min_valid is 0 and absorb_miss keeps the value set by the
leading modifier keywords. -/
def applySuffix (name : String) (absorb_miss : Bool) : SuffixResult :=
  match splitMinValid name with
  | some pd => { name := pd.1, min_valid := digitsToNat pd.2, absorb_miss := true }
  | none => { name := name, min_valid := 0, absorb_miss := absorb_miss }

/-- generate.py lines 467–476: an operation with a positive
minimum-valid count must have a trailing array argument whose element
type is number and whose multiplication factor is 1. -/
def checkMinValid (op : Op) : Except String Unit :=
  if op.min_valid > 0 then
    match op.array_arg with
    | none => Except.error "cant have minimum valid count without array arg"
    | some aa =>
        if aa.type_.name ≠ "number" then
          Except.error "minimum valid count allowed only with double array"
        else if aa.times ≠ 1 then
          Except.error "cant have minimum valid count if array has multiplication factor"
        else Except.ok ()
  else Except.ok ()

/-- The accumulating state of `parse_input`: the dict of operations
keyed by canonical identifier (only the keys matter to the duplicate
check, so the key list is kept) and the function/operator lists. -/
structure IRState where
  opnames : List String
  funcs : List Op
  opers : List Op
deriving DecidableEq

def initIR : IRState := { opnames := [], funcs := [], opers := [] }

/-- generate.py lines 477–483: reject a duplicate canonical identifier,
otherwise file the operation under the function or operator list. -/
def registerOp (st : IRState) (op : Op) : Except String IRState :=
  if st.opnames.contains op.opname then
    Except.error ("duplicate operation name " ++ op.opname)
  else
    Except.ok
      { opnames := st.opnames ++ [op.opname],
        funcs := if op.category = Category.function then st.funcs ++ [op] else st.funcs,
        opers := if op.category = Category.operator then st.opers ++ [op] else st.opers }

/-- Registration of a whole sequence of parsed operations, aborting at
the first duplicate, as the `parse_input` loop does. -/
def registerOps : IRState → List Op → Except String IRState
  | st, [] => Except.ok st
  | st, op :: rest =>
      match registerOp st op with
      | Except.ok st2 => registerOps st2 rest
      | Except.error e => Except.error e

/-- The function sort key of generate.py line 487: the pair
`(f.name, f.opname)` compared lexicographically, as Python compares
tuples of strings. -/
def funcKeyLE (a b : Op) : Bool :=
  decide (a.name < b.name ∨ (a.name = b.name ∧ Op.opname a ≤ Op.opname b))

/-- The operator sort key of generate.py line 488: the display name. -/
def operKeyLE (a b : Op) : Bool := decide (a.name ≤ b.name)

/-- generate.py lines 487–489: the combined emission order — functions
sorted by (name, opname), followed by operators sorted by name — fixed
at the end of `parse_input`, before any emitter runs. -/
def finalizeOrder (funcs opers : List Op) : List Op :=
  funcs.mergeSort funcKeyLE ++ opers.mergeSort operKeyLE

/-! ### Emitters -/

/-- Python truthiness of an optional string (`if op.block:`). -/
def pyTruthy : Option String → Bool
  | none => false
  | some s => ¬ s.isEmpty

/-- Embeds `'%s' % v` where `v` may be Python `None`. -/
def optStr : Option String → String
  | none => "None"
  | some s => s

/-- The parameter list built by `generate_evaluate_h` for one
operation (before the `void` substitution for an empty list). -/
def evalHArgs (op : Op) : List String :=
  (op.args.flatMap fun arg =>
    match arg.idx with
    | none => [arg.type_.c_type ++ arg.name]
    | some idx => [arg.type_.c_type ++ arg.name ++ "[]", "size_t " ++ idx]) ++
  op.aux.map (fun aux => aux.type_.c_type ++ aux.name)

/-- generate.py lines 696–724 (`generate_evaluate_h`), restricted to a
single operation: the emitted inline evaluator function, or none when
the operation is unimplemented (the loop `continue`s, contributing no
text at all). -/
def evaluateHEntry (op : Op) : Option String :=
  if op.unimplemented then none
  else
    let args := evalHArgs op
    let args := if args.isEmpty then ["void"] else args
    let statements :=
      if pyTruthy op.block then optStr op.block ++ "\n"
      else "  return " ++ optStr op.expression ++ ";\n"
    some ("static inline " ++ op.returns.c_type ++ "\n" ++
          "eval_" ++ op.opname ++ " (" ++ String.intercalate ", " args ++ ")\n" ++
          "\x7b\n" ++ statements ++ "\x7d\n\n")

/-- The `decls`/`args` accumulators of the argument loop of
`generate_evaluate_inc` (lines 734–765). -/
structure IncParts where
  decls : List String
  args : List String
deriving DecidableEq

/-- One iteration of the argument loop of `generate_evaluate_inc`:
an `int`-represented argument is redeclared through the `double`
representation, and when the operation absorbs missing values the
argument expression substitutes INT_MIN for SYSMIS; scalar stack
("any") arguments prepend their pop declaration, leaf arguments append
their constant-payload read, and an array argument prepends its count
and window declarations and appends the count expression to the call
arguments.  (The final `else` of the Python code is `assert False`,
unreachable for parser-produced arguments.) -/
def evalIncStep (op : Op) (acc : IncParts) (arg : Arg) : IncParts :=
  let type_ := arg.type_
  let intRep := type_.c_type = "int "
  let c_type := if intRep then "double " else type_.c_type
  let argExpr :=
    if intRep ∧ op.absorb_miss then
      "arg_" ++ arg.name ++ " == SYSMIS ? INT_MIN : arg_" ++ arg.name
    else
      "arg_" ++ arg.name
  let args := acc.args ++ [argExpr]
  match arg.idx with
  | none =>
      let decl := c_type ++ "arg_" ++ arg.name
      let decls :=
        if type_.role = "any" then (decl ++ " = *--" ++ type_.stack) :: acc.decls
        else if type_.role = "leaf" then acc.decls ++ [decl ++ " = op++->" ++ type_.atom]
        else acc.decls
      { decls := decls, args := args }
  | some idx =>
      let decls :=
        (c_type ++ "*arg_" ++ arg.name ++ " = " ++ type_.stack ++ " -= arg_" ++ idx)
          :: acc.decls
      let decls := ("size_t arg_" ++ idx ++ " = op++->integer") :: decls
      let idxe := "arg_" ++ idx
      let idxe := if arg.times ≠ 1 then idxe ++ " / " ++ toString arg.times else idxe
      { decls := decls, args := args ++ [idxe] }

/-- One iteration of the aux loop of `generate_evaluate_inc` (lines
766–778).  The `expr_node` branch of the Python code is listed after
the `leaf` branch and `expr_node` has role leaf, so it is transcribed
in the same (dead-code-preserving) order. -/
def evalIncAuxStep (acc : IncParts) (aux : AuxDatum) : IncParts :=
  let type_ := aux.type_
  if type_.role = "leaf" then
    { decls := acc.decls ++ [type_.c_type ++ "aux_" ++ aux.name ++ " = op++->" ++ type_.atom],
      args := acc.args ++ ["aux_" ++ aux.name] }
  else if type_.name = "expr_node" then
    { decls := acc.decls ++ [type_.c_type ++ "aux_" ++ aux.name ++ " = op++->node"],
      args := acc.args ++ ["aux_" ++ aux.name] }
  else if type_.role = "auxonly" then
    { acc with args := acc.args ++ [type_.auxonly_value] }
  else acc

/-- The argument-loop part of `generate_evaluate_inc` for one
operation. -/
def evalIncArgParts (op : Op) : IncParts :=
  op.args.foldl (evalIncStep op) { decls := [], args := [] }

/-- The full `decls`/`args` state after both loops of
`generate_evaluate_inc`. -/
def evalIncParts (op : Op) : IncParts :=
  op.aux.foldl evalIncAuxStep (evalIncArgParts op)

/-- generate.py lines 727–802 (`generate_evaluate_inc`), restricted to
a single operation: the Stack-Dispatch case emitted for it. -/
def evaluateIncCase (op : Op) : String :=
  if op.unimplemented then
    "case " ++ op.opname ++ ":\n  NOT_REACHED ();\n\n"
  else
    let parts := evalIncParts op
    let sysmis_cond := op.sysmis_decl "op++->integer"
    let decls := parts.decls ++ (match sysmis_cond with | some d => [d] | none => [])
    let result := "eval_" ++ op.opname ++ " (" ++ String.intercalate ", " parts.args ++ ")"
    let stack := op.returns.stack
    "case " ++ op.opname ++ ":\n" ++
    (if ¬ decls.isEmpty then
      "  \x7b\n" ++
      String.join (decls.map (fun d => "    " ++ d ++ ";\n")) ++
      (match sysmis_cond with
       | some _ =>
           "    *" ++ stack ++ "++ = force_sysmis ? " ++ op.returns.missing_value ++
           " : " ++ result ++ ";\n"
       | none => "    *" ++ stack ++ "++ = " ++ result ++ ";\n") ++
      "  \x7d\n"
    else
      "  *" ++ stack ++ "++ = " ++ result ++ ";\n") ++
    "  break;\n\n"

/-- The declaration loop of `generate_optimize_inc` (lines 866–886):
each scalar argument is read from an accessor call against the syntax
tree node keyed by the running argument index, and an array argument
binds the remaining argument count and a slice of the node's
arguments. -/
def optIncDecls (op : Op) : List String :=
  (op.args.foldl
    (fun (acc : List String × Nat) arg =>
      let type_ := arg.type_
      let c_type := type_.c_type
      let arg_idx := acc.2
      let newDecls :=
        match arg.idx with
        | none =>
            let func := if type_.name = "integer" then "get_integer_arg"
                        else "get_" ++ type_.atom ++ "_arg"
            [c_type ++ "arg_" ++ arg.name ++ " = " ++ func ++
             " (node, " ++ toString arg_idx ++ ")"]
        | some idx =>
            let decl := "size_t arg_" ++ idx ++ " = node->n_args" ++
              (if arg_idx > 0 then " - " ++ toString arg_idx else "")
            [decl,
             c_type ++ "*arg_" ++ arg.name ++ " = get_" ++ type_.atom ++ "_args  " ++
             "(node, " ++ toString arg_idx ++ ", arg_" ++ idx ++ ", e)"]
      (acc.1 ++ newDecls, arg_idx + 1))
    ([], 0)).1

/-- The call-argument loop of `generate_optimize_inc` (lines 892–909). -/
def optIncArgs (op : Op) : List String :=
  (op.args.flatMap fun arg =>
    ["arg_" ++ arg.name] ++
    (match arg.idx with
     | some idx =>
         let idxe := "arg_" ++ idx
         [if arg.times ≠ 1 then idxe ++ " / " ++ toString arg.times else idxe]
     | none => [])) ++
  (op.aux.flatMap fun aux =>
    if aux.type_.role = "leaf" then ["node"]
    else if aux.type_.role = "auxonly" then [aux.type_.auxonly_value]
    else [])

/-- generate.py lines 859–928 (`generate_optimize_inc`), restricted to
a single operation: the Fold-Dispatch case emitted for it.  An
operation that is not optimizable, or is unimplemented, gets a case
holding only the unreachable marker. -/
def optimizeIncCase (op : Op) : String :=
  if ¬ op.optimizable ∨ op.unimplemented then
    "case " ++ op.opname ++ ":\n  NOT_REACHED ();\n\n"
  else
    let decls := optIncDecls op
    let sysmis_cond := op.sysmis_decl "node->min_valid"
    let decls := decls ++ (match sysmis_cond with | some d => [d] | none => [])
    let args := optIncArgs op
    let result := "eval_" ++ op.opname ++ " (" ++ String.intercalate ", " args ++ ")"
    let pair :=
      if ¬ decls.isEmpty ∧ sysmis_cond.isSome then
        (decls ++ [op.returns.c_type ++ "result = force_sysmis ? " ++
                   op.returns.missing_value ++ " : " ++ result],
         "result")
      else (decls, result)
    let alloc_func := "expr_allocate_" ++ op.returns.name
    "case " ++ op.opname ++ ":\n" ++
    (if ¬ pair.1.isEmpty then
      "  \x7b\n" ++
      String.join (pair.1.map (fun d => "    " ++ d ++ ";\n")) ++
      "    return " ++ alloc_func ++ " (e, " ++ pair.2 ++ ");\n" ++
      "  \x7d\n"
    else
      "  return " ++ alloc_func ++ " (e, " ++ pair.2 ++ ");\n") ++
    "\n"

/-- The enum constant names emitted for the built-in type atoms by
`generate_operations_h`: one per non-auxonly registry type, in
registry order. -/
def atomEnumNames : List String :=
  (allTypes.filter (fun t => t.role ≠ "auxonly")).map (fun t => "OP_" ++ t.name)

/-- The enum constant names emitted for functions: `[f.opname for f in
funcs]` (generate.py line 818), with no filtering whatsoever. -/
def functionEnumNames (funcs : List Op) : List String := funcs.map Op.opname

/-- The enum constant names emitted for operators (line 820). -/
def operatorEnumNames (opers : List Op) : List String := opers.map Op.opname

/-- Embeds `print_range` (generate.py lines 841–845). -/
def printRangeText (pfx first last : String) : String :=
  "    " ++ pfx ++ "_first = " ++ first ++ ",\n" ++
  "    " ++ pfx ++ "_last = " ++ last ++ ",\n" ++
  "    n_" ++ pfx ++ " = " ++ pfx ++ "_last - " ++ pfx ++ "_first + 1"

/-- Embeds `print_operations` (generate.py lines 832–838).  Python indexes
`names[0]` and `names[-1]`; the empty-names case (a run with no
functions or no operators at all) would raise in Python and yields the
empty string here. -/
def printOperationsText (ty first : String) (names : List String) : String :=
  match names with
  | [] => ""
  | n0 :: rest =>
      "    /* " ++ ty.capitalize ++ " types. */\n" ++
      "    " ++ n0 ++ " = " ++ first ++ ",\n" ++
      String.join (rest.map (fun n => "    " ++ n ++ ",\n")) ++
      printRangeText ("OP_" ++ ty) n0 (rest.getLastD n0) ++
      ",\n\n"

/-- Embeds `print_predicate` (generate.py lines 848–856). -/
def printPredicateText (fname category : String) : String :=
  "\nstatic inline bool\n" ++
  fname ++ " (operation_type op)\n" ++
  "\x7b\n" ++
  (if fname ≠ "is_operation" then "  assert (is_operation (op));\n" else "") ++
  "  return op >= " ++ category ++ "_first && op <= " ++ category ++ "_last;\n" ++
  "\x7d\n"

/-- generate.py lines 805–829 (`generate_operations_h`): the
Opcode-Enum emission, over the finished function and operator lists. -/
def generateOperationsH (funcs opers : List Op) : String :=
  "#include <stdlib.h>\n" ++ "#include <stdbool.h>\n\n" ++
  "typedef enum" ++ "  \x7b\n" ++
  printOperationsText "atom" "1" atomEnumNames ++
  printOperationsText "function" "OP_atom_last + 1" (functionEnumNames funcs) ++
  printOperationsText "operator" "OP_function_last + 1" (operatorEnumNames opers) ++
  printRangeText "OP_composite" "OP_function_first" "OP_operator_last" ++
  ",\n\n" ++
  printRangeText "OP" "OP_atom_first" "OP_composite_last" ++
  "\n  \x7d\n" ++
  "operation_type, atom_type;\n" ++
  printPredicateText "is_operation" "OP" ++
  String.join (["atom", "composite", "function", "operator"].map
    (fun key => printPredicateText ("is_" ++ key) ("OP_" ++ key)))

/-- One flat metadata record of `generate_parse_inc` (lines 941–961)
for an operation: display name, prototype (or NULL), flag bitmask,
return-type code, argument count, argument type codes, minimum-valid
count, and array multiplier (0 if none). -/
def parseIncOpRecord (op : Op) : String :=
  let members :=
    ["\"" ++ op.name ++ "\""] ++
    [match op.prototype with
     | some p => "\"" ++ p ++ "\""
     | none => "NULL"] ++
    [op.flags] ++
    ["OP_" ++ op.returns.name] ++
    [toString op.args.length] ++
    ["\x7b" ++ String.intercalate ", " (op.args.map (fun a => "OP_" ++ a.type_.name)) ++ "\x7d"] ++
    [toString op.min_valid] ++
    [toString (match op.array_arg with | some aa => aa.times | none => 0)]
  "\x7b" ++ String.intercalate ", " members ++ "\x7d,\n"

/-- The per-type metadata record of `generate_parse_inc` (lines
935–939). -/
def parseIncTypeRecord (t : Ty) : String :=
  "\x7b" ++ String.intercalate ", "
    ["\"" ++ t.name ++ "\"", "\"" ++ t.human_name ++ "\"", "0", "OP_" ++ t.name,
     "0", "\x7b\x7d", "0", "0"] ++ "\x7d,\n"

/-- generate.py lines 931–961 (`generate_parse_inc`): the Metadata-Table
emission — a null record, one record per non-auxonly type, then one
record per operation in emission order, with no filtering. -/
def generateParseInc (order : List Op) : String :=
  "\x7b" ++ String.intercalate ", "
    ["\"\"", "\"\"", "0", "0", "0", "\x7b\x7d", "0", "0"] ++ "\x7d,\n" ++
  String.join ((allTypes.filter (fun t => t.role ≠ "auxonly")).map parseIncTypeRecord) ++
  String.join (order.map parseIncOpRecord)

/-! ### Concrete operations used to exercise the definitions -/

/-- The IR record `parse_input` builds for the minimal definition
`function SQUARE(x) = x * x;`: one plain number argument (the default
argument type), number return type (the default), no flags. -/
def squareOp : Op :=
  { name := "SQUARE", category := Category.function, returns := tNumber,
    args := [{ name := "x", type_ := tNumber, idx := none }],
    aux := [], expression := some "x * x" }

/-- A function with two plain numeric arguments and no array
argument. -/
def twoArgOp : Op :=
  { name := "NAME", category := Category.function, returns := tNumber,
    args := [{ name := "x", type_ := tNumber, idx := none },
             { name := "y", type_ := tNumber, idx := none }],
    aux := [], expression := some "0" }

/-- The function `twoArgOp` with a trailing number array argument added and the
minimum-valid count 1 (which also forces absorb_miss, as the name
suffix `NAME.1` would). -/
def withArrOp : Op :=
  { twoArgOp with
    args := twoArgOp.args ++ [{ name := "z", type_ := tNumber, idx := some "n" }],
    min_valid := 1, absorb_miss := true }

/-- A function with an integer-typed scalar argument that does not
absorb missing values. -/
def truncOp : Op :=
  { name := "TRUNC", category := Category.function, returns := tNumber,
    args := [{ name := "x", type_ := tNumber, idx := none },
             { name := "digits", type_ := tInteger, idx := none }],
    aux := [], expression := some "0" }

/-- The operation `truncOp` with the absorb-missing flag set. -/
def truncAbsorbOp : Op := { truncOp with absorb_miss := true }

/-- The integer-typed argument of `truncOp` and `truncAbsorbOp`. -/
def digitsArg : Arg := { name := "digits", type_ := tInteger, idx := none }

/-- A function taking one plain number argument; its argument-type
sequence mangles the same as `dupF2`. -/
def dupF1 : Op :=
  { name := "FOO", category := Category.function, returns := tNumber,
    args := [{ name := "x", type_ := tNumber, idx := none }],
    aux := [], expression := some "1" }

/-- A second function with the same name and the same argument-type
sequence as `dupF1` (a different body does not change the canonical
identifier). -/
def dupF2 : Op :=
  { name := "FOO", category := Category.function, returns := tNumber,
    args := [{ name := "x", type_ := tNumber, idx := none }],
    aux := [], expression := some "2" }

/-- The IR record for `function SUM.2(number x[n]) = ...;`: a plain
(unmultiplied) number array argument, minimum-valid count 2,
absorb_miss forced by the name suffix. -/
def sumOp : Op :=
  { name := "SUM", category := Category.function, returns := tNumber,
    args := [{ name := "x", type_ := tNumber, idx := some "n" }],
    aux := [], expression := some "0", min_valid := 2, absorb_miss := true }

/-- A plain number argument named `a`. -/
def numArg : Arg := { name := "a", type_ := tNumber, idx := none }

/-- An operation marked non-optimizable (`no_opt`). -/
def noOptOp : Op :=
  { name := "NOOPT", category := Category.function, returns := tNumber,
    args := [{ name := "x", type_ := tNumber, idx := none }],
    aux := [], expression := some "0", optimizable := false }

/-- An operation marked unimplemented. -/
def unimplOp : Op :=
  { name := "UNIMPL", category := Category.function, returns := tNumber,
    args := [{ name := "x", type_ := tNumber, idx := none }],
    aux := [], unimplemented := true }

/-- An auxiliary-data declaration of the case-context type. -/
def caseAux : AuxDatum := { type_ := tCase, name := "c" }

/-- An operator taking two number operands. -/
def negOp : Op :=
  { name := "NEG", category := Category.operator, returns := tNumber,
    args := [{ name := "x", type_ := tNumber, idx := none }],
    aux := [], expression := some "-x" }

/-- An integer-typed scalar argument named `k`. -/
def intKArg : Arg := { name := "k", type_ := tInteger, idx := none }

/-- An absorbing operation with an integer scalar argument followed by
a trailing number array argument. -/
def intArrOp : Op :=
  { name := "IDX", category := Category.function, returns := tNumber,
    args := [intKArg, { name := "x", type_ := tNumber, idx := some "n" }],
    aux := [], expression := some "0", absorb_miss := true }

/-! ### Theorems -/

/-- C2: the optimizable cross-check never rejects on auxiliary data:
for any operation whose name does not put it in the random-variate
family, `checkOptimizable` succeeds no matter what auxiliary data is
declared — the membership test `key in aux` compares the uppercase
string keys against whole aux records and never matches, so the
intended rejection of case/case-index auxiliary data on optimizable
operations never fires. -/
theorem C2_holds (optimizable : Bool) (name : String) (aux : List AuxDatum)
    (h : List.isPrefixOf "RV.".data name.data = false) :
    checkOptimizable optimizable name aux = Except.ok () := by
  unfold checkOptimizable
  simp [h, pyStrEqAuxDatum]

/-- C2 witness: an optimizable operation with case auxiliary data is
accepted by the cross-check. -/
theorem C2_witness : checkOptimizable true "F" [caseAux] = Except.ok () :=
  C2_holds true "F" [caseAux] (by decide)

set_option maxRecDepth 8192 in
/-- C3 counterexample: for `function SQUARE(x) = x * x;` the claim
says the Stack-Dispatch case computes no `force_sysmis` boolean and
pushes the plain call result; in fact `Op.sysmis_decl` returns a guard
declaration for it, and the emitted case is not the guard-free one the
claim describes. -/
theorem C3_counterexample :
    squareOp.sysmis_decl "op++->integer" ≠ none ∧
    evaluateIncCase squareOp ≠
      "case OP_SQUARE_n:\n  \x7b\n    double arg_x = *--ns;\n" ++
      "    *ns++ = eval_OP_SQUARE_n (arg_x);\n  \x7d\n  break;\n\n" := by
  constructor <;> decide

set_option maxRecDepth 8192 in
/-- C3 (amended): the Stack-Dispatch case for `SQUARE` pops one
operand from the number stack, computes the missing-value guard
`force_sysmis = !is_valid (arg_x)` (the argument is numeric and the
operation does not absorb missing values), and pushes SYSMIS when the
guard fires and the plain call result otherwise. -/
theorem C3_amended :
    evaluateIncCase squareOp =
      "case OP_SQUARE_n:\n  \x7b\n    double arg_x = *--ns;\n" ++
      "    bool force_sysmis = !is_valid (arg_x);\n" ++
      "    *ns++ = force_sysmis ? SYSMIS : eval_OP_SQUARE_n (arg_x);\n  \x7d\n" ++
      "  break;\n\n" := by
  decide

set_option maxRecDepth 8192 in
/-- C4 counterexample: adding a trailing number array argument with
minimum-valid count 1 to the function with two plain numeric arguments
does not produce the claimed prototype string; the two required
arguments stay in the prototype, followed by the one required array
repetition. -/
theorem C4_counterexample :
    Op.prototype withArrOp ≠ some "NAME(number[, number]...)" ∧
    Op.prototype withArrOp = some "NAME(number, number, number[, number]...)" := by
  constructor <;> decide

set_option maxRecDepth 8192 in
/-- C4 (amended): a function with two plain numeric arguments and no
array argument has prototype string "NAME(number, number)"; adding to
it a trailing number array argument with minimum-valid count 1
produces "NAME(number, number, number[, number]...)". -/
theorem C4_amended :
    Op.prototype twoArgOp = some "NAME(number, number)" ∧
    Op.prototype withArrOp = some "NAME(number, number, number[, number]...)" := by
  constructor <;> decide

/-- C9: every operation marked non-optimizable is emitted by the
Fold-Dispatch emitter as a case containing only the unreachable
marker, so no constant-folding code is generated for it. -/
theorem C9_holds (op : Op) (h : op.optimizable = false) :
    optimizeIncCase op = "case " ++ op.opname ++ ":\n  NOT_REACHED ();\n\n" := by
  unfold optimizeIncCase
  simp [h]

/-- C9 witness: the concrete non-optimizable operation gets the
unreachable-marker case. -/
theorem C9_witness :
    optimizeIncCase noOptOp = "case " ++ noOptOp.opname ++ ":\n  NOT_REACHED ();\n\n" :=
  C9_holds noOptOp rfl

/-- C7: when the operation name matches the minimum-valid suffix
pattern with a positive digit value, the suffix processing forces the
absorbs-missing flag on, and the post-construction check accepts the
operation exactly when it has a trailing array argument whose element
type is number and whose multiplication factor is 1 (it rejects with a
fatal error otherwise). -/
theorem C7_holds (rawName : String) (mAbsorb : Bool) (sfx : String × String)
    (hmatch : splitMinValid rawName = some sfx) (hpos : 0 < digitsToNat sfx.2)
    (op : Op)
    (hmv : op.min_valid = (applySuffix rawName mAbsorb).min_valid)
    (hab : op.absorb_miss = (applySuffix rawName mAbsorb).absorb_miss) :
    op.absorb_miss = true ∧
    (checkMinValid op = Except.ok () ↔
      ∃ aa, op.array_arg = some aa ∧ aa.type_.name = "number" ∧ aa.times = 1) := by
  have hap : applySuffix rawName mAbsorb =
      { name := sfx.1, min_valid := digitsToNat sfx.2, absorb_miss := true } := by
    unfold applySuffix
    rw [hmatch]
  rw [hap] at hmv hab
  refine ⟨hab, ?_⟩
  unfold checkMinValid
  rw [hmv]
  rw [if_pos hpos]
  rcases harr : op.array_arg with _ | aa
  · simp
  · by_cases h1 : aa.type_.name = "number"
    · by_cases h2 : aa.times = 1
      · simp [h1, h2]
      · simp [h1, h2]
    · simp [h1]

/-- C7 witness: the operation parsed from `function SUM.2(x[n]) = ...`
has absorb_miss forced on and passes the minimum-valid check (it has a
plain number array argument). -/
theorem C7_witness :
    sumOp.absorb_miss = true ∧
    (checkMinValid sumOp = Except.ok () ↔
      ∃ aa, sumOp.array_arg = some aa ∧ aa.type_.name = "number" ∧ aa.times = 1) :=
  C7_holds "SUM.2" false ("SUM", "2") (by decide) (by decide) sumOp (by decide) (by decide)

/-- The string-return/absorb-missing argument loop succeeds exactly
when no argument is numeric or boolean and none carries a validity
condition. -/
theorem checkStringAbsorbArgs_ok_iff (name : String) (args : List Arg) :
    checkStringAbsorbArgs args name = Except.ok () ↔
      ∀ a ∈ args,
        ¬(a.type_.name = "number" ∨ a.type_.name = "boolean") ∧ a.condition = none := by
  induction args with
  | nil => simp [checkStringAbsorbArgs]
  | cons a rest ih =>
      rw [List.forall_mem_cons]
      unfold checkStringAbsorbArgs
      by_cases h1 : a.type_.name = "number" ∨ a.type_.name = "boolean"
      · rw [if_pos h1]
        constructor
        · intro hcontra
          exact Except.noConfusion hcontra
        · intro hall
          exact absurd h1 hall.1.1
      · rw [if_neg h1]
        cases hc : a.condition with
        | none => simp [h1, ih]
        | some c => simp [h1]

/-- C8: an operation whose return type is string and whose
absorbs-missing flag is unset is rejected exactly when some argument
has type number or boolean or carries a validity condition; with the
flag set (or a non-string return type) the check accepts. -/
theorem C8_holds (rt : String) (absorb : Bool) (name : String) (args : List Arg) :
    checkStringAbsorb rt absorb name args = Except.ok () ↔
      ¬(rt = "string" ∧ absorb = false ∧
        ∃ a ∈ args,
          a.type_.name = "number" ∨ a.type_.name = "boolean" ∨ a.condition ≠ none) := by
  unfold checkStringAbsorb
  by_cases hrt : rt = "string"
  · cases hab : absorb with
    | true => simp [hrt]
    | false =>
        rw [if_pos ⟨hrt, by simp⟩, checkStringAbsorbArgs_ok_iff]
        simp only [hrt, true_and, not_or]
        push_neg
        simp [and_assoc]
  · simp [hrt]

/-- C8 witness: the string-returning shape with a numeric argument is
accepted with absorb_miss set and rejected without it. -/
theorem C8_witness :
    (checkStringAbsorb "string" true "F" [numArg] = Except.ok ()) ∧
    (checkStringAbsorb "string" false "F" [numArg] ≠ Except.ok ()) :=
  ⟨(C8_holds "string" true "F" [numArg]).mpr (by decide),
   fun hok => absurd ((C8_holds "string" false "F" [numArg]).mp hok) (by decide)⟩

/-- C10: an unimplemented operation contributes nothing to the
Evaluator-Body emission, but still receives its opcode constant in the
Opcode-Enum emission, appears in the finished emission order with a
full Metadata-Table record whose flag bitmask carries
OPF_UNIMPLEMENTED, and its Stack-Dispatch and Fold-Dispatch cases hold
only the unreachable marker. -/
theorem C10_holds (op : Op) (funcs opers : List Op) (h : op.unimplemented = true)
    (hm : op ∈ funcs ∨ op ∈ opers) :
    evaluateHEntry op = none ∧
    (op.opname ∈ functionEnumNames funcs ∨ op.opname ∈ operatorEnumNames opers) ∧
    "OPF_UNIMPLEMENTED" ∈ op.flagsList ∧
    op ∈ finalizeOrder funcs opers ∧
    parseIncOpRecord op ∈ (finalizeOrder funcs opers).map parseIncOpRecord ∧
    evaluateIncCase op = "case " ++ op.opname ++ ":\n  NOT_REACHED ();\n\n" ∧
    optimizeIncCase op = "case " ++ op.opname ++ ":\n  NOT_REACHED ();\n\n" := by
  have hmem : op ∈ finalizeOrder funcs opers := by
    unfold finalizeOrder
    rcases hm with hf | ho
    · exact List.mem_append_left _ ((List.mergeSort_perm funcs funcKeyLE).mem_iff.mpr hf)
    · exact List.mem_append_right _ ((List.mergeSort_perm opers operKeyLE).mem_iff.mpr ho)
  refine ⟨?_, ?_, ?_, hmem, ?_, ?_, ?_⟩
  · simp [evaluateHEntry, h]
  · rcases hm with hf | ho
    · exact Or.inl (List.mem_map_of_mem _ hf)
    · exact Or.inr (List.mem_map_of_mem _ ho)
  · simp [Op.flagsList, h]
  · exact List.mem_map_of_mem _ hmem
  · simp [evaluateIncCase, h]
  · simp [optimizeIncCase, h]

/-- C10 witness: the concrete unimplemented operation, registered as
the only function, is omitted from the evaluator bodies but present
everywhere else. -/
theorem C10_witness :
    evaluateHEntry unimplOp = none ∧
    (Op.opname unimplOp ∈ functionEnumNames [unimplOp] ∨
      Op.opname unimplOp ∈ operatorEnumNames []) ∧
    "OPF_UNIMPLEMENTED" ∈ Op.flagsList unimplOp ∧
    unimplOp ∈ finalizeOrder [unimplOp] [] ∧
    parseIncOpRecord unimplOp ∈ (finalizeOrder [unimplOp] []).map parseIncOpRecord ∧
    evaluateIncCase unimplOp = "case " ++ Op.opname unimplOp ++ ":\n  NOT_REACHED ();\n\n" ∧
    optimizeIncCase unimplOp = "case " ++ Op.opname unimplOp ++ ":\n  NOT_REACHED ();\n\n" :=
  C10_holds unimplOp [unimplOp] [] rfl (Or.inl (by simp))

/-- Membership in the `decls` accumulator is preserved by each step of
the evaluate.inc argument loop. -/
theorem evalIncStep_decls_mono (op : Op) (acc : IncParts) (b : Arg) (d : String)
    (h : d ∈ acc.decls) : d ∈ (evalIncStep op acc b).decls := by
  unfold evalIncStep
  cases hb : b.idx with
  | none =>
      by_cases h1 : b.type_.role = "any"
      · simp [h1, h]
      · by_cases h2 : b.type_.role = "leaf"
        · simp [h1, h2, h]
        · simp [h1, h2, h]
  | some idx => simp [h]

/-- Membership in the `decls` accumulator is preserved by the whole
argument loop. -/
theorem evalIncFold_decls_mono (op : Op) :
    ∀ (args : List Arg) (acc : IncParts) (d : String),
      d ∈ acc.decls → d ∈ (args.foldl (evalIncStep op) acc).decls := by
  intro args
  induction args with
  | nil => intro acc d h; exact h
  | cons b rest ih =>
      intro acc d h
      exact ih _ _ (evalIncStep_decls_mono op acc b d h)

/-- Closed form of the call-argument list built by the evaluate.inc
argument loop: each argument contributes its scalar expression (the
INT_MIN-substituting conditional exactly when its representation is
int and the operation absorbs missing values), and an array argument
additionally contributes its count expression. -/
theorem evalIncFold_args (op : Op) :
    ∀ (args : List Arg) (acc : IncParts),
      (args.foldl (evalIncStep op) acc).args = acc.args ++ args.flatMap (fun a =>
        (if a.type_.c_type = "int " ∧ op.absorb_miss then
           ["arg_" ++ a.name ++ " == SYSMIS ? INT_MIN : arg_" ++ a.name]
         else ["arg_" ++ a.name]) ++
        (match a.idx with
         | none => []
         | some idx =>
             [if a.times ≠ 1 then "arg_" ++ idx ++ " / " ++ toString a.times
              else "arg_" ++ idx])) := by
  intro args
  induction args with
  | nil => intro acc; simp
  | cons b rest ih =>
      intro acc
      have hstep : (evalIncStep op acc b).args = acc.args ++
          ((if b.type_.c_type = "int " ∧ op.absorb_miss then
              ["arg_" ++ b.name ++ " == SYSMIS ? INT_MIN : arg_" ++ b.name]
            else ["arg_" ++ b.name]) ++
           (match b.idx with
            | none => []
            | some idx =>
                [if b.times ≠ 1 then "arg_" ++ idx ++ " / " ++ toString b.times
                 else "arg_" ++ idx])) := by
        unfold evalIncStep
        cases hb : b.idx with
        | none =>
            by_cases hca : b.type_.c_type = "int " ∧ op.absorb_miss
            · simp [hca]
            · simp [hca]
        | some idx =>
            by_cases hca : b.type_.c_type = "int " ∧ op.absorb_miss
            · simp [hca]
            · simp [hca]
      rw [List.foldl_cons, ih _, hstep]
      simp [List.append_assoc]

/-- The pop declaration generated for a scalar stack argument is in
the `decls` accumulator after the loop. -/
theorem evalIncFold_decls_mem (op : Op) :
    ∀ (args : List Arg) (acc : IncParts) (a : Arg),
      a ∈ args → a.idx = none → a.type_.c_type = "int " → a.type_.role = "any" →
      (("double " ++ "arg_" ++ a.name) ++ " = *--" ++ a.type_.stack) ∈
        (args.foldl (evalIncStep op) acc).decls := by
  intro args
  induction args with
  | nil =>
      intro acc a ha
      cases ha
  | cons b rest ih =>
      intro acc a ha hidx hint hrole
      rcases List.mem_cons.mp ha with hab | hmem
      · subst hab
        rw [List.foldl_cons]
        apply evalIncFold_decls_mono
        unfold evalIncStep
        rw [hidx]
        simp [hint, hrole]
      · rw [List.foldl_cons]
        exact ih _ a hmem hidx hint hrole

/-- The constant-payload declaration generated for a scalar leaf
argument is in the `decls` accumulator after the loop. -/
theorem evalIncFold_decls_mem_leaf (op : Op) :
    ∀ (args : List Arg) (acc : IncParts) (a : Arg),
      a ∈ args → a.idx = none → a.type_.c_type = "int " → a.type_.role = "leaf" →
      (("double " ++ "arg_" ++ a.name) ++ " = op++->" ++ a.type_.atom) ∈
        (args.foldl (evalIncStep op) acc).decls := by
  intro args
  induction args with
  | nil =>
      intro acc a ha
      cases ha
  | cons b rest ih =>
      intro acc a ha hidx hint hrole
      rcases List.mem_cons.mp ha with hab | hmem
      · subst hab
        rw [List.foldl_cons]
        apply evalIncFold_decls_mono
        unfold evalIncStep
        rw [hidx]
        simp [hint, hrole]
      · rw [List.foldl_cons]
        exact ih _ a hmem hidx hint hrole

set_option maxRecDepth 8192 in
/-- C1 counterexample: `truncOp` has an integer-typed scalar argument
and does not absorb missing values; contrary to the claim, the
argument expression handed to its evaluator call is the plain popped
argument — the INT_MIN-substituting conditional appears nowhere. -/
theorem C1_counterexample :
    truncOp.absorb_miss = false ∧
    "arg_digits == SYSMIS ? INT_MIN : arg_digits" ∉ (evalIncArgParts truncOp).args ∧
    (evalIncArgParts truncOp).args = ["arg_x", "arg_digits"] := by
  refine ⟨rfl, ?_, ?_⟩ <;> decide

/-- C1 (amended): in the Stack-Dispatch emission, for every operation,
each declared argument contributes to the evaluator call, in order,
its scalar expression — the INT_MIN-for-SYSMIS-substituting
conditional exactly when its C representation is int and the operation
absorbs missing values, the plain argument otherwise — followed by the
count expression for an array argument; and every integer-typed scalar
argument's local is declared through the double representation, both
when it is popped from a stack and when it is read from a constant
payload. -/
theorem C1_amended (op : Op) :
    ((evalIncArgParts op).args = op.args.flatMap (fun a =>
      (if a.type_.c_type = "int " ∧ op.absorb_miss then
         ["arg_" ++ a.name ++ " == SYSMIS ? INT_MIN : arg_" ++ a.name]
       else ["arg_" ++ a.name]) ++
      (match a.idx with
       | none => []
       | some idx =>
           [if a.times ≠ 1 then "arg_" ++ idx ++ " / " ++ toString a.times
            else "arg_" ++ idx]))) ∧
    (∀ a ∈ op.args, a.idx = none → a.type_.c_type = "int " →
      (a.type_.role = "any" →
        (("double " ++ "arg_" ++ a.name) ++ " = *--" ++ a.type_.stack) ∈
          (evalIncArgParts op).decls) ∧
      (a.type_.role = "leaf" →
        (("double " ++ "arg_" ++ a.name) ++ " = op++->" ++ a.type_.atom) ∈
          (evalIncArgParts op).decls)) := by
  constructor
  · unfold evalIncArgParts
    rw [evalIncFold_args op op.args]
    simp
  · intro a ha hidx hint
    constructor
    · intro hrole
      unfold evalIncArgParts
      exact evalIncFold_decls_mem op op.args _ a ha hidx hint hrole
    · intro hrole
      unfold evalIncArgParts
      exact evalIncFold_decls_mem_leaf op op.args _ a ha hidx hint hrole

set_option maxRecDepth 8192 in
/-- C1 witness: for the absorbing operation with an integer scalar
argument and a trailing number array argument, the substituting
conditional is the integer argument's call expression, the array
contributes its count, and the integer local is declared through the
double representation. -/
theorem C1_witness :
    ((evalIncArgParts intArrOp).args = intArrOp.args.flatMap (fun a =>
      (if a.type_.c_type = "int " ∧ intArrOp.absorb_miss then
         ["arg_" ++ a.name ++ " == SYSMIS ? INT_MIN : arg_" ++ a.name]
       else ["arg_" ++ a.name]) ++
      (match a.idx with
       | none => []
       | some idx =>
           [if a.times ≠ 1 then "arg_" ++ idx ++ " / " ++ toString a.times
            else "arg_" ++ idx]))) ∧
    (("double " ++ "arg_" ++ intKArg.name) ++ " = *--" ++ intKArg.type_.stack) ∈
      (evalIncArgParts intArrOp).decls :=
  ⟨(C1_amended intArrOp).1,
   ((C1_amended intArrOp).2 intKArg (by decide) (by decide) (by decide)).1 (by decide)⟩

/-- After a successful registration run the accumulated key list is
the initial one extended by each operation's canonical identifier, in
order. -/
theorem registerOps_opnames :
    ∀ (ops : List Op) (st st2 : IRState),
      registerOps st ops = Except.ok st2 → st2.opnames = st.opnames ++ ops.map Op.opname := by
  intro ops
  induction ops with
  | nil =>
      intro st st2 h
      cases h
      simp
  | cons op rest ih =>
      intro st st2 h
      unfold registerOps registerOp at h
      by_cases hc : st.opnames.contains op.opname = true
      · rw [if_pos hc] at h
        exact Except.noConfusion h
      · rw [if_neg hc] at h
        have h2 := ih _ _ h
        simpa [List.append_assoc] using h2

/-- The registration run succeeds exactly when the initial keys plus
the new canonical identifiers are duplicate-free. -/
theorem registerOps_isOk_iff :
    ∀ (ops : List Op) (st : IRState), st.opnames.Nodup →
      ((registerOps st ops).isOk = true ↔ (st.opnames ++ ops.map Op.opname).Nodup) := by
  intro ops
  induction ops with
  | nil =>
      intro st h
      simpa [registerOps, Except.isOk, Except.toBool] using h
  | cons op rest ih =>
      intro st h
      by_cases hc : st.opnames.contains op.opname = true
      · have hmem : op.opname ∈ st.opnames := by simpa using hc
        have hisok : (registerOps st (op :: rest)).isOk = false := by
          unfold registerOps registerOp
          rw [if_pos hc]
          rfl
        have hnot : ¬ (st.opnames ++ op.opname :: rest.map Op.opname).Nodup := by
          intro hnd
          rcases List.nodup_append.mp hnd with ⟨-, -, hdisj⟩
          exact hdisj hmem (List.mem_cons_self _ _)
        simp [hisok, hnot]
      · have hmem : op.opname ∉ st.opnames := by simpa using hc
        have hnd2 : (st.opnames ++ [op.opname]).Nodup :=
          List.Nodup.append h (List.nodup_singleton _) (by simpa using hmem)
        have hstep : registerOps st (op :: rest) = registerOps
            { opnames := st.opnames ++ [op.opname],
              funcs := if op.category = Category.function then st.funcs ++ [op] else st.funcs,
              opers := if op.category = Category.operator then st.opers ++ [op] else st.opers }
            rest := by
          conv_lhs => unfold registerOps registerOp
          rw [if_neg hc]
        rw [hstep, ih _ hnd2]
        simp [List.append_assoc]

/-- C6: registration of a sequence of parsed operations succeeds
exactly when their canonical identifiers are pairwise distinct (so a
duplicate is a fatal error); on success the finished IR's identifier
list is duplicate-free; and two functions with the same name and the
same argument mangle-code sequence always share one canonical
identifier, so a pair of functions overloaded on nothing is always
rejected. -/
theorem C6_holds (ops : List Op) :
    ((registerOps initIR ops).isOk = true ↔ (ops.map Op.opname).Nodup) ∧
    (∀ st, registerOps initIR ops = Except.ok st → st.opnames.Nodup) ∧
    (∀ f g : Op, f.category = Category.function → g.category = Category.function →
      f.name = g.name →
      f.args.map (fun a => a.type_.mangle) = g.args.map (fun a => a.type_.mangle) →
      f.opname = g.opname) := by
  refine ⟨?_, ?_, ?_⟩
  · simpa [initIR] using registerOps_isOk_iff ops initIR (by simp [initIR])
  · intro st h
    have h1 := registerOps_opnames ops initIR st h
    have h2 := (registerOps_isOk_iff ops initIR (by simp [initIR])).mp (by rw [h]; rfl)
    rw [h1]
    simpa [initIR] using h2
  · intro f g hf hg hn hm
    unfold Op.opname
    rw [hf, hg, hn, hm]

/-- C6 witness: two functions with equal name and equal argument-type
sequences have one canonical identifier and cannot both register. -/
theorem C6_witness :
    Op.opname dupF1 = Op.opname dupF2 ∧
    (registerOps initIR [dupF1, dupF2]).isOk ≠ true :=
  ⟨(C6_holds [dupF1, dupF2]).2.2 dupF1 dupF2 rfl rfl rfl rfl,
   fun hok => absurd ((C6_holds [dupF1, dupF2]).1.mp hok) (by decide)⟩

/-- Transitivity of the function sort key. -/
theorem funcKeyLE_trans (a b c : Op) (h1 : funcKeyLE a b = true)
    (h2 : funcKeyLE b c = true) : funcKeyLE a c = true := by
  simp only [funcKeyLE, decide_eq_true_eq] at h1 h2 ⊢
  rcases h1 with h1 | h1
  · rcases h2 with h2 | h2
    · exact Or.inl (lt_trans h1 h2)
    · exact Or.inl (by rw [← h2.1]; exact h1)
  · rcases h2 with h2 | h2
    · exact Or.inl (by rw [h1.1]; exact h2)
    · exact Or.inr ⟨h1.1.trans h2.1, le_trans h1.2 h2.2⟩

/-- Totality of the function sort key. -/
theorem funcKeyLE_total (a b : Op) : (funcKeyLE a b || funcKeyLE b a) = true := by
  rw [Bool.or_eq_true]
  simp only [funcKeyLE, decide_eq_true_eq]
  rcases lt_trichotomy a.name b.name with h | h | h
  · exact Or.inl (Or.inl h)
  · rcases le_total (Op.opname a) (Op.opname b) with ho | ho
    · exact Or.inl (Or.inr ⟨h, ho⟩)
    · exact Or.inr (Or.inr ⟨h.symm, ho⟩)
  · exact Or.inr (Or.inl h)

/-- Transitivity of the operator sort key. -/
theorem operKeyLE_trans (a b c : Op) (h1 : operKeyLE a b = true)
    (h2 : operKeyLE b c = true) : operKeyLE a c = true := by
  simp only [operKeyLE, decide_eq_true_eq] at h1 h2 ⊢
  exact le_trans h1 h2

/-- Totality of the operator sort key. -/
theorem operKeyLE_total (a b : Op) : (operKeyLE a b || operKeyLE b a) = true := by
  rw [Bool.or_eq_true]
  simp only [operKeyLE, decide_eq_true_eq]
  exact le_total a.name b.name

/-- C5: the combined emission order fixed at the end of `parse_input`
consists of exactly the functions, sorted by display name with ties
broken by canonical identifier, followed by exactly the operators,
sorted by display name: its first block is a permutation of the
function list and sorted under the function key, and the rest is a
permutation of the operator list and sorted under the operator key. -/
theorem C5_holds (funcs opers : List Op) :
    ((finalizeOrder funcs opers).take funcs.length).Perm funcs ∧
    ((finalizeOrder funcs opers).drop funcs.length).Perm opers ∧
    ((finalizeOrder funcs opers).take funcs.length).Pairwise
      (fun a b => funcKeyLE a b = true) ∧
    ((finalizeOrder funcs opers).drop funcs.length).Pairwise
      (fun a b => operKeyLE a b = true) := by
  have hlen : (funcs.mergeSort funcKeyLE).length = funcs.length :=
    List.length_mergeSort funcs
  have htake : (finalizeOrder funcs opers).take funcs.length = funcs.mergeSort funcKeyLE := by
    unfold finalizeOrder
    rw [← hlen, List.take_left]
  have hdrop : (finalizeOrder funcs opers).drop funcs.length = opers.mergeSort operKeyLE := by
    unfold finalizeOrder
    rw [← hlen, List.drop_left]
  refine ⟨?_, ?_, ?_, ?_⟩
  · rw [htake]
    exact List.mergeSort_perm funcs funcKeyLE
  · rw [hdrop]
    exact List.mergeSort_perm opers operKeyLE
  · rw [htake]
    exact List.sorted_mergeSort funcKeyLE_trans funcKeyLE_total funcs
  · rw [hdrop]
    exact List.sorted_mergeSort operKeyLE_trans operKeyLE_total opers

/-- C5 witness: the combined order of one function and one operator. -/
theorem C5_witness :
    ((finalizeOrder [squareOp] [negOp]).take [squareOp].length).Perm [squareOp] ∧
    ((finalizeOrder [squareOp] [negOp]).drop [squareOp].length).Perm [negOp] ∧
    ((finalizeOrder [squareOp] [negOp]).take [squareOp].length).Pairwise
      (fun a b => funcKeyLE a b = true) ∧
    ((finalizeOrder [squareOp] [negOp]).drop [squareOp].length).Pairwise
      (fun a b => operKeyLE a b = true) :=
  C5_holds [squareOp] [negOp]

end PsppGen
